import Mathlib

/-!
Verification of the Dolt standby-replication commit hook
(`go/libraries/doltcore/sqle/cluster/commithook.go`) and the database
provider's `DropDatabase` (`go/libraries/doltcore/sqle/database_provider.go`).

The Go code is shallowly embedded: the hook's mutex-protected fields become a
`Commithook` structure, each externally callable operation becomes a pure
function from the state (plus the results of the external calls it makes) to
the new state and its outputs, and the interleavings the worker loop permits
are captured by an event list folded over `step`.  Hashes (`hash.Hash`) are
`Nat` with `0` as the zero hash, timestamps (`time.Time`) are `Nat` with `0`
as the zero value and one unit for one second, and Go channels are named by
`Nat` identities allocated from a counter.
-/

namespace DoltCluster

/-- `hash.Hash`; only equality and the zero-hash test are used, so `Nat`
with `0` as the zero hash is a faithful carrier. -/
abbrev Hash := Nat

/-- `time.Time`; `0` is the zero value `time.Time{}` and `+ 1` is
`Add(1 * time.Second)`. -/
abbrev Timestamp := Nat

/-- Identity of a Go `chan struct{}` held in `successChs`. -/
abbrev ChanId := Nat

/-- The cluster role of the hook (`RolePrimary`, `RoleStandby`,
`RoleDetectedBrokenConfig`). -/
inductive Role where
  | Primary
  | Standby
  | DetectedBrokenConfig
deriving DecidableEq, Repr

/-- The mutex-protected state of one `commithook` (commithook.go lines
37-85).  `inflight` models an `attemptReplicate` that has released the mutex
for the remote calls: it holds the captured `toPush`, `incomingTime` and the
stolen `successChs`, and also stands for the live `cancelReplicate` handle.
`destDBSet` is `destDB != nil`.  `nextCh` is the allocator for channel
identities (a modelling device; the Go code allocates with `make(chan)`). -/
structure Commithook where
  role : Role
  nextHead : Hash
  lastPushedHead : Hash
  nextPushAttempt : Timestamp
  nextHeadIncomingTime : Timestamp
  lastSuccess : Timestamp
  currentError : Option String
  successChs : List ChanId
  fastFailReplicationWait : Bool
  destDBSet : Bool
  inflight : Option (Hash × Timestamp × List ChanId)
  nextCh : ChanId
  remotename : String
  dbname : String
deriving DecidableEq, Repr

/-- `newCommitHook` (lines 92-105): every replication field starts at its
zero value. -/
def newCommitHook (remotename dbname : String) (role : Role) : Commithook :=
  { role := role
    nextHead := 0
    lastPushedHead := 0
    nextPushAttempt := 0
    nextHeadIncomingTime := 0
    lastSuccess := 0
    currentError := none
    successChs := []
    fastFailReplicationWait := false
    destDBSet := false
    inflight := none
    nextCh := 0
    remotename := remotename
    dbname := dbname }

/-- `isCaughtUp` (lines 196-204): not primary is always caught up; a primary
with a zero `nextHead` is NOT caught up; otherwise compare against
`lastPushedHead`. -/
def isCaughtUp (s : Commithook) : Bool :=
  if s.role ≠ Role.Primary then true
  else if s.nextHead = 0 then false
  else decide (s.nextHead = s.lastPushedHead)

/-- `shouldReplicate` (lines 186-191). -/
def shouldReplicate (s : Commithook) (now : Timestamp) : Bool :=
  if isCaughtUp s then false
  else decide (s.nextPushAttempt = 0 ∨ now > s.nextPushAttempt)

/-- `primaryNeedsInit` (lines 207-209). -/
def primaryNeedsInit (s : Commithook) : Bool :=
  decide (s.role = Role.Primary ∧ s.nextHead = 0)

/-- `errDestDBRootHashMoved` (line 87). -/
def errDestDBRootHashMovedMsg : String :=
  "cluster/commithook: standby replication: destination database root hash moved during our write, while it is assumed we are the only writer."

/-- `errDetectedBrokenConfigStr` (line 435). -/
def errDetectedBrokenConfigStr : String :=
  "error: more than one server was configured as primary in the same epoch. this server has stopped accepting writes. choose a primary in the cluster and call dolt_assume_cluster_role() on servers in the cluster to start replication at a higher epoch"

/-- The error message built by the circuit-breaker `waitF` (line 466). -/
def circuitBreakerMsg (remotename dbname : String) : String :=
  "circuit breaker for replication to " ++ remotename ++ "/" ++ dbname ++
    " is open. this commit did not necessarily replicate successfully."

/-- The `currentError` text on a failed push (line 324). -/
def destDBCommitFailMsg (e : String) : String :=
  "failed to commit chunks on destDB: " ++ e

/-- The `currentError` text on a failed `destDBF` call (line 274). -/
def destDBFetchFailMsg (e : String) : String :=
  "could not replicate to standby: error fetching destDB: " ++ e

/-- The value of the `waitF` closure returned by `Execute` (lines 462-483):
`nilF` is the nil closure, `fastFail` the closure that immediately returns
the circuit-breaker error, `block` the closure that blocks on the shared
success channel `ch`. -/
inductive WaitF where
  | nilF
  | fastFail (msg : String)
  | block (ch : ChanId)
deriving DecidableEq, Repr

/-- Whether a `waitF` is the blocking (channel-backed) kind. -/
def WaitF.isBlock : WaitF → Bool
  | .block _ => true
  | _ => false

/-- The four results of `Execute` (lines 439-484): the state after the call,
the returned `waitF`, the returned error, and whether `h.cond.Signal()` was
invoked. -/
structure ExecResult where
  state : Commithook
  waitF : WaitF
  err : Option String
  signaled : Bool
deriving DecidableEq, Repr

/-- The `waitF` construction block of `Execute` (lines 462-483): nil when
caught up; the immediate circuit-breaker failure when
`fastFailReplicationWait` is set; otherwise the first channel of
`successChs`, appending a fresh one when the slice is empty.  `sig` is
passed through as the signal flag of the overall call. -/
def executeWaitF (s1 : Commithook) (sig : Bool) : ExecResult :=
  if isCaughtUp s1 then ⟨s1, .nilF, none, sig⟩
  else if s1.fastFailReplicationWait then
    ⟨s1, .fastFail (circuitBreakerMsg s1.remotename s1.dbname), none, sig⟩
  else
    match s1.successChs with
    | [] =>
      let ch := s1.nextCh
      ⟨{ s1 with successChs := [ch], nextCh := ch + 1 }, .block ch, none, sig⟩
    | c :: _ => ⟨s1, .block c, none, sig⟩

/-- `Execute` (lines 439-484).  `rootRes` is the result of the
`cs.Root(ctx)` read done before the mutex is taken; on error, `Execute`
returns `(nil, err)` before the role is even consulted (lines 443-447).
Otherwise: not-primary returns `(nil, nil)` untouched (lines 451-454), a
new root updates the head fields and signals the worker (lines 455-461),
and the `waitF` block runs on the updated state. -/
def Execute (s : Commithook) (rootRes : Except String Hash) (now : Timestamp) : ExecResult :=
  match rootRes with
  | .error e => ⟨s, .nilF, some e, false⟩
  | .ok root =>
    if s.role ≠ Role.Primary then ⟨s, .nilF, none, false⟩
    else
      let sig : Bool := decide (root ≠ s.nextHead)
      let s1 :=
        if root ≠ s.nextHead then
          { s with nextHeadIncomingTime := now, nextHead := root, nextPushAttempt := 0 }
        else s
      executeWaitF s1 sig

/-- `NotifyWaitFailed` (lines 486-490). -/
def NotifyWaitFailed (s : Commithook) : Commithook :=
  { s with fastFailReplicationWait := true }

/-- `setRole` (lines 400-420).  Returns the new state and whether
`cancelReplicate` was invoked (it is non-nil exactly when an attempt is in
flight; the attempt itself keeps running to its final mutex section, so
`inflight` is not cleared here). -/
def setRole (s : Commithook) (r : Role) : Commithook × Bool :=
  let cancelled := s.inflight.isSome
  let s1 := { s with currentError := none, nextHead := 0, lastPushedHead := 0,
                     lastSuccess := 0, nextPushAttempt := 0, role := r }
  if r = Role.DetectedBrokenConfig then
    ({ s1 with currentError := some errDetectedBrokenConfigStr }, cancelled)
  else (s1, cancelled)

/-- `recordSuccessfulRemoteSrvCommit` (lines 390-398). -/
def recordSuccessfulRemoteSrvCommit (s : Commithook) (now : Timestamp) : Commithook :=
  if s.role ≠ Role.Standby then s
  else { s with lastSuccess := now, currentError := none }

/-- Result of the destination chunk store's `Commit(toPush, curRootHash)`
call: committed (`ok=true, err=nil`), `ok=false` with nil error, or an
error. -/
inductive CommitResult where
  | committed
  | notOk
  | failed (msg : String)
deriving DecidableEq, Repr

/-- The error computed by the remote phase of `attemptReplicate` (lines
290-306): `PullChunks`, then `Rebase`, then `Root`, then `Commit`; a
`Commit` that returns `ok=false` with a nil error becomes
`errDestDBRootHashMoved`. -/
def remotePhaseErr (pullErr rebaseErr rootErr : Option String) (commit : CommitResult) :
    Option String :=
  match pullErr with
  | some e => some e
  | none =>
    match rebaseErr with
    | some e => some e
    | none =>
      match rootErr with
      | some e => some e
      | none =>
        match commit with
        | .failed e => some e
        | .notOk => some errDestDBRootHashMovedMsg
        | .committed => none

/-- The final mutex-held section of `attemptReplicate` (lines 308-333)
together with its deferred cleanups (lines 252-265): `s` is the hook state
at reacquire time; `toPush`, `incomingTime` and the stolen channel list were
captured at entry.  Returns the new state and the list of channels closed.
On success the stolen channels are closed and the local slice nil-ed so the
deferred restore appends nothing; on failure, and when the role is no longer
primary, nothing is closed and the deferred restore puts the stolen channels
back. -/
def attemptReplicateFinish (s : Commithook) (toPush : Hash) (incomingTime : Timestamp)
    (stolen : List ChanId) (err : Option String) (now : Timestamp) :
    Commithook × List ChanId :=
  if s.role = Role.Primary then
    match err with
    | none =>
      ({ s with currentError := none, lastPushedHead := toPush, lastSuccess := incomingTime,
                nextPushAttempt := 0, inflight := none }, stolen)
    | some e =>
      ({ s with currentError := some (destDBCommitFailMsg e),
                nextPushAttempt := if toPush = s.nextHead then now + 1 else s.nextPushAttempt,
                successChs := s.successChs ++ stolen, inflight := none }, [])
  else
    ({ s with successChs := s.successChs ++ stolen, inflight := none }, [])

/-- The early-return path of `attemptReplicate` when the lazy `destDBF`
factory fails (lines 268-283) together with the deferred restore of the
stolen channels: `currentError` is set without consulting the role, and the
1-second backoff is scheduled only when `toPush` still equals `nextHead`. -/
def attemptReplicateFactoryFail (s : Commithook) (toPush : Hash) (stolen : List ChanId)
    (e : String) (now : Timestamp) : Commithook × List ChanId :=
  ({ s with currentError := some (destDBFetchFailMsg e),
            nextPushAttempt := if toPush = s.nextHead then now + 1 else s.nextPushAttempt,
            successChs := s.successChs ++ stolen, inflight := none }, [])

/-- The externally determined outcome of one `attemptReplicate` call: either
the lazy factory fails, or the remote calls run with the given results. -/
inductive ReplicateOutcome where
  | factoryFail (msg : String)
  | remote (pullErr rebaseErr rootErr : Option String) (commit : CommitResult)
deriving Repr

/-- One full `attemptReplicate` call (lines 247-333) with no interference
from other threads while the mutex is released: capture `toPush`,
`incomingTime`, steal the channels, run the remote phase with outcome `o`,
and finish.  `destDBSet` becomes true once the factory has succeeded
(lines 285-287). -/
def attemptReplicateRun (s : Commithook) (o : ReplicateOutcome) (now : Timestamp) :
    Commithook × List ChanId :=
  let toPush := s.nextHead
  let incomingTime := s.nextHeadIncomingTime
  let stolen := s.successChs
  let s1 := { s with successChs := [], inflight := some (toPush, incomingTime, stolen) }
  match o with
  | .factoryFail e => attemptReplicateFactoryFail s1 toPush stolen e now
  | .remote p rb rt c =>
    let s2 := { s1 with destDBSet := true }
    attemptReplicateFinish s2 toPush incomingTime stolen (remotePhaseErr p rb rt c) now

/-- The idle branch of the replicate loop (lines 166-173): when caught up
with pending channels, close them all, clear the slice and clear the
circuit breaker.  Returns the new state and the closed channels. -/
def idleScan (s : Commithook) : Commithook × List ChanId :=
  if s.successChs ≠ [] ∧ isCaughtUp s = true then
    ({ s with successChs := [], fastFailReplicationWait := false }, s.successChs)
  else (s, [])

/-- The `primaryNeedsInit` branch of the replicate loop (lines 142-157):
read the local root; on error leave `nextHead` zero; either way stamp
`nextHeadIncomingTime`. -/
def primaryInitRun (s : Commithook) (rootRes : Except String Hash) (now : Timestamp) :
    Commithook :=
  { s with nextHead := match rootRes with | .ok r => r | .error _ => 0
           nextHeadIncomingTime := now }

/-- How an in-flight `attemptReplicate` ends: the lazy factory failed, or
the remote phase ran and produced `err` (with `none` meaning the push
committed). -/
inductive FinishKind where
  | factoryFail (msg : String)
  | pushed (err : Option String)
deriving Repr

/-- One atomic mutex-held action on the hook state.  `execute`,
`notifyWaitFailed`, `roleChange` (the source's `setRole`) and
`remoteSrvCommit` are the externally called operations; `primaryInit`,
`idle`, `replicateStart` and `replicateFinish` are the sections of the
replicate worker loop, with `replicateStart`/`replicateFinish` bracketing
the window in which `attemptReplicate` has released the mutex for the
remote calls.  `attemptHeartbeat` touches none of the modelled fields and
has no event. -/
inductive Event where
  | execute (rootRes : Except String Hash) (now : Timestamp)
  | notifyWaitFailed
  | roleChange (r : Role)
  | remoteSrvCommit (now : Timestamp)
  | primaryInit (rootRes : Except String Hash) (now : Timestamp)
  | idle
  | replicateStart (now : Timestamp)
  | replicateFinish (k : FinishKind) (now : Timestamp)
deriving Repr

/-- Interpretation of one event.  `replicateStart` fires only in the states
in which the worker loop reaches `attemptReplicate` (lines 142-159: not
`primaryNeedsInit`, `shouldReplicate`, and no attempt already in flight);
`replicateFinish` fires only when an attempt is in flight and consumes the
values it captured. -/
def step (s : Commithook) (e : Event) : Commithook :=
  match e with
  | .execute rootRes now => (Execute s rootRes now).state
  | .notifyWaitFailed => NotifyWaitFailed s
  | .roleChange r => (setRole s r).1
  | .remoteSrvCommit now => recordSuccessfulRemoteSrvCommit s now
  | .primaryInit rootRes now =>
    if primaryNeedsInit s then primaryInitRun s rootRes now else s
  | .idle => (idleScan s).1
  | .replicateStart now =>
    if s.inflight = none ∧ primaryNeedsInit s = false ∧ shouldReplicate s now = true then
      { s with inflight := some (s.nextHead, s.nextHeadIncomingTime, s.successChs),
               successChs := [] }
    else s
  | .replicateFinish k now =>
    match s.inflight with
    | none => s
    | some (tp, it, stolen) =>
      match k with
      | .factoryFail e => (attemptReplicateFactoryFail s tp stolen e now).1
      | .pushed err => (attemptReplicateFinish s tp it stolen err now).1

/-- Run a sequence of events. -/
def run (s : Commithook) (es : List Event) : Commithook :=
  es.foldl step s

/-- All states visited while running `es` from `s`, including `s` itself
and the final state. -/
def statesAlong (s : Commithook) (es : List Event) : List Commithook :=
  match es with
  | [] => [s]
  | e :: rest => s :: statesAlong (step s e) rest

/-- Every value `nextHead` holds at some point while running `es` from `s`. -/
def nextHeadsDuring (s : Commithook) (es : List Event) : List Hash :=
  (statesAlong s es).map Commithook.nextHead

/-- Whether an event is a `setRole` call. -/
def isRoleChange : Event → Bool
  | .roleChange _ => true
  | _ => false

/-- No `setRole` call occurs in the event list. -/
def noRoleChange (es : List Event) : Bool :=
  es.all (fun e => !isRoleChange e)

/-- The `toPush` head captured by the in-flight attempt, if any. -/
def capturedHead (s : Commithook) : Option Hash :=
  s.inflight.map (fun c => c.1)

/-!
The database provider (`database_provider.go`).  Database and directory
names are `List Char` so that every string operation the code performs
(case folding, splitting at the revision delimiter, prefix tests) is a
plain structural recursion.
-/

/-- A database, directory or file name. -/
abbrev Name := List Char

/-- `dsess.DbRevisionDelimiter`. -/
def dbRevisionDelimiter : Char := '/'

/-- Split a name at the first occurrence of the revision delimiter, as
`strings.Cut` does: `"a/b/c"` becomes `("a", "b/c")`, a name without the
delimiter becomes `(name, "")`. -/
def cutOnDelim : Name → Name × Name
  | [] => ([], [])
  | c :: rest =>
    if c = dbRevisionDelimiter then ([], rest)
    else
      let (b, r) := cutOnDelim rest
      (c :: b, r)

/-- Modelled from the spec: `dsess.SplitRevisionDbName` is not under `src/`;
per section 4.5 of the spec, "a request for `db/rev` splits on the revision
delimiter (first occurrence only)", the base before the delimiter and the
revision after it, with an empty revision when there is no delimiter. -/
def SplitRevisionDbName (name : Name) : Name × Name :=
  cutOnDelim name

/-- Case folding of a name (`strings.ToLower`). -/
def toLowerName (n : Name) : Name :=
  n.map Char.toLower

/-- `formatDbMapKeyName` (database_provider.go lines 1507-1516): lowercase
the whole name when it has no revision delimiter, otherwise lowercase only
the base and keep the revision case-sensitive. -/
def formatDbMapKeyName (name : Name) : Name :=
  if name.contains dbRevisionDelimiter then
    let (dbName, revSpec) := cutOnDelim name
    toLowerName dbName ++ [dbRevisionDelimiter] ++ revSpec
  else toLowerName name

/-- The provider state `DropDatabase` reads and writes: the keys of the
`databases` map, the `dbLocations` map (key to absolute location), the
absolute location of the provider root (`p.fs.Abs("")`), and the set of
directories existing on the filesystem. -/
structure DoltDatabaseProvider where
  databases : List Name
  dbLocations : List (Name × Name)
  rootLoc : Name
  fsDirs : List Name
deriving DecidableEq, Repr

/-- Look a key up in the `dbLocations` association list. -/
def lookupLoc (l : List (Name × Name)) (k : Name) : Option Name :=
  (l.find? (fun p => decide (p.1 = k))).map (fun p => p.2)

/-- The errors `DropDatabase` can return.  Constructor `revisionDb` is the
Go error "unable to drop revision database: <name>"; `noDb` models the
failed `db.(Database)` assertion on a name absent from the map (the engine
protects against reaching it); `notFound` is `sql.ErrDatabaseNotFound`. -/
inductive DropErr where
  | revisionDb (name : Name)
  | noDb (name : Name)
  | notFound (name : Name)
deriving DecidableEq, Repr

/-- The `.dolt` metadata directory name (`dbfactory.DoltDir`). -/
def doltDir : Name := ['.', 'd', 'o', 'l', 't']

/-- `DropDatabase` (database_provider.go lines 602-687).  The revision
guard (lines 603-606) runs before the provider lock is taken; past it, the
database is closed, the singleton chunk-store cache entry is evicted and
`DropDatabaseHook` runs (external effects with no state in this model),
then either the `.dolt` subdirectory (database at the provider root) or the
whole database directory is deleted, every derivative `base/rev` entry and
the key itself are removed from `databases`, and `dbLocations` is left
untouched, as in the source. -/
def DropDatabase (p : DoltDatabaseProvider) (name : Name) :
    Except DropErr DoltDatabaseProvider :=
  if (SplitRevisionDbName name).2 ≠ [] then .error (.revisionDb name)
  else
    let dbKey := formatDbMapKeyName name
    if ¬ dbKey ∈ p.databases then .error (.noDb name)
    else
      match lookupLoc p.dbLocations dbKey with
      | none => .error (.notFound name)
      | some dropDbLoc =>
        let dirToDelete :=
          if dropDbLoc = p.rootLoc then p.rootLoc ++ [dbRevisionDelimiter] ++ doltDir
          else dropDbLoc
        if ¬ dirToDelete ∈ p.fsDirs then .error (.notFound name)
        else
          let derivPrefixOf := toLowerName dbKey ++ [dbRevisionDelimiter]
          .ok { p with
                fsDirs := p.fsDirs.erase dirToDelete
                databases :=
                  ((p.databases.filter
                      (fun k => ¬ derivPrefixOf.isPrefixOf (toLowerName k))).filter
                    (fun k => decide (k ≠ dbKey))) }

/-!
Concrete states used by the counterexamples below.
-/

/-- Hook state after: a commit brings head `1`, the controller calls
`NotifyWaitFailed`, and the worker starts and successfully finishes the
push of head `1`. -/
def fastFailAfterPushState : Commithook :=
  run (newCommitHook "remote1" "db1" Role.Primary)
    [.execute (.ok 1) 0, .notifyWaitFailed, .replicateStart 0,
     .replicateFinish (.pushed none) 1]

/-- Hook state of a fresh primary right after `NotifyWaitFailed`. -/
def fastFailFreshState : Commithook :=
  NotifyWaitFailed (newCommitHook "remote1" "db1" Role.Primary)

/-- Hook state after: the worker initializes `nextHead` to head `1`, starts
pushing it, and `setRole(Primary)` arrives while the push is in flight
(resetting every head field but leaving the attempt running). -/
def crossEpochState : Commithook :=
  run (newCommitHook "remote1" "db1" Role.Primary)
    [.primaryInit (.ok 1) 0, .replicateStart 0, .roleChange Role.Primary]

/-- The event in which the cross-epoch in-flight push completes. -/
def crossEpochFinish : List Event :=
  [.replicateFinish (.pushed none) 1]

/-- A provider holding a database whose map key is literally `"db/"` and
whose directory is `"/x"` under the provider root `"/"`. -/
def trailingDelimProvider : DoltDatabaseProvider :=
  { databases := [['d', 'b', '/']]
    dbLocations := [(['d', 'b', '/'], ['/', 'x'])]
    rootLoc := ['/']
    fsDirs := [['/', 'x']] }

/-- The name `"db/"`: it contains the revision delimiter but its revision
part is empty. -/
def trailingDelimName : Name := ['d', 'b', '/']

/-!
Claim C1.
-/

/-- C1, counterexample: on a fresh primary (`role = Primary`, `nextHead`
zero) `isCaughtUp()` returns `false`, so the claimed equivalence
"`isCaughtUp()` iff role not Primary, or `nextHead` zero, or `nextHead =
lastPushedHead`" fails: the right side holds while `isCaughtUp()` does
not. -/
theorem isCaughtUp_zero_nextHead_cex :
    ¬ ((isCaughtUp (newCommitHook "remote1" "db1" Role.Primary) = true) ↔
       ((newCommitHook "remote1" "db1" Role.Primary).role ≠ Role.Primary ∨
        (newCommitHook "remote1" "db1" Role.Primary).nextHead = 0 ∨
        (newCommitHook "remote1" "db1" Role.Primary).nextHead =
          (newCommitHook "remote1" "db1" Role.Primary).lastPushedHead)) := by
  decide

/-- C1, amended: for every hook state, `isCaughtUp()` returns true if and
only if role is not Primary, or `nextHead` is nonzero and equals
`lastPushedHead`; in particular, with role Primary and `nextHead` zero,
`isCaughtUp()` is false. -/
theorem isCaughtUp_iff (s : Commithook) :
    isCaughtUp s = true ↔
      (s.role ≠ Role.Primary ∨ (s.nextHead ≠ 0 ∧ s.nextHead = s.lastPushedHead)) := by
  unfold isCaughtUp
  split_ifs with h1 h2 <;> simp_all

/-- C1 witness: the amended equivalence evaluated on a standby hook. -/
theorem isCaughtUp_iff_witness :
    isCaughtUp (newCommitHook "remote1" "db1" Role.Standby) = true ↔
      ((newCommitHook "remote1" "db1" Role.Standby).role ≠ Role.Primary ∨
       ((newCommitHook "remote1" "db1" Role.Standby).nextHead ≠ 0 ∧
        (newCommitHook "remote1" "db1" Role.Standby).nextHead =
          (newCommitHook "remote1" "db1" Role.Standby).lastPushedHead)) :=
  isCaughtUp_iff (newCommitHook "remote1" "db1" Role.Standby)

/-!
Claim C7.
-/

/-- C7: `setRole(newRole)` resets `nextHead`, `lastPushedHead`,
`lastSuccess` and `nextPushAttempt` to their zero values, stores the new
role, invokes the in-flight push's cancel exactly when one exists, sets
`currentError` to the split-primary operator message when the new role is
`DetectedBrokenConfig` and clears it otherwise, and afterwards
`isCaughtUp()` is true for every non-Primary role (a pure state read, no
remote I/O). -/
theorem setRole_resets (s : Commithook) (r : Role) :
    (setRole s r).1.nextHead = 0 ∧
    (setRole s r).1.lastPushedHead = 0 ∧
    (setRole s r).1.lastSuccess = 0 ∧
    (setRole s r).1.nextPushAttempt = 0 ∧
    (setRole s r).1.role = r ∧
    (setRole s r).2 = s.inflight.isSome ∧
    (r = Role.DetectedBrokenConfig →
      (setRole s r).1.currentError = some errDetectedBrokenConfigStr) ∧
    (r ≠ Role.DetectedBrokenConfig → (setRole s r).1.currentError = none) ∧
    (r ≠ Role.Primary → isCaughtUp (setRole s r).1 = true) := by
  unfold setRole isCaughtUp
  split_ifs with h <;> simp_all

/-- C7 witness: `setRole(Standby)` on a primary that had a head pending. -/
theorem setRole_resets_witness :
    (setRole { newCommitHook "remote1" "db1" Role.Primary with
                 nextHead := 3, lastPushedHead := 2 } Role.Standby).1.nextHead = 0 ∧
    (setRole { newCommitHook "remote1" "db1" Role.Primary with
                 nextHead := 3, lastPushedHead := 2 } Role.Standby).1.currentError = none ∧
    isCaughtUp (setRole { newCommitHook "remote1" "db1" Role.Primary with
                 nextHead := 3, lastPushedHead := 2 } Role.Standby).1 = true := by
  have h := setRole_resets
    { newCommitHook "remote1" "db1" Role.Primary with nextHead := 3, lastPushedHead := 2 }
    Role.Standby
  exact ⟨h.1, h.2.2.2.2.2.2.2.1 (by decide), h.2.2.2.2.2.2.2.2 (by decide)⟩

/-!
Claim C8.
-/

/-- C8, counterexample: with role Standby, an `Execute` call whose local
`cs.Root` read fails returns a non-nil error (the read error) rather than
the claimed `(nil, nil)`: the error return happens before the role is
consulted. -/
theorem execute_nonprimary_root_error_cex :
    (newCommitHook "remote1" "db1" Role.Standby).role ≠ Role.Primary ∧
    (Execute (newCommitHook "remote1" "db1" Role.Standby)
        (.error "injected io error") 0).err ≠ none := by
  decide

/-- C8, amended: for every `Execute` call where role is not Primary and the
local root read succeeds, `Execute` returns `(nil, nil)`, modifies no hook
state and signals no worker; when the local root read fails, `Execute`
returns `(nil, err)` before the role check, also leaving the state
unchanged. -/
theorem execute_nonprimary (s : Commithook) (rootv : Hash) (now : Timestamp)
    (h : s.role ≠ Role.Primary) :
    Execute s (.ok rootv) now = ⟨s, .nilF, none, false⟩ ∧
    (∀ e, Execute s (.error e) now = ⟨s, .nilF, some e, false⟩) := by
  constructor
  · simp [Execute, h]
  · intro e
    rfl

/-- C8 witness: a standby hook accepts the commit with no wait closure. -/
theorem execute_nonprimary_witness :
    Execute (newCommitHook "remote1" "db1" Role.Standby) (.ok 4) 7 =
      ⟨newCommitHook "remote1" "db1" Role.Standby, .nilF, none, false⟩ :=
  (execute_nonprimary (newCommitHook "remote1" "db1" Role.Standby) 4 7 (by decide)).1

/-!
Claim C9.
-/

/-- C9: when the destination chunk store's `Commit(toPush, curRootHash)`
returns `ok=false` with a nil error, the attempt fails with exactly the
`errDestDBRootHashMoved` message, which is recorded in `currentError`
(wrapped by the "failed to commit chunks on destDB" prefix of line 324),
a 1-second backoff is scheduled, `lastPushedHead` is unchanged, and no
wait channel is closed. -/
theorem destRootMoved_error (s : Commithook) (now : Timestamp)
    (h : s.role = Role.Primary) :
    remotePhaseErr none none none CommitResult.notOk = some errDestDBRootHashMovedMsg ∧
    errDestDBRootHashMovedMsg =
      "cluster/commithook: standby replication: destination database root hash moved during our write, while it is assumed we are the only writer." ∧
    (attemptReplicateRun s (.remote none none none .notOk) now).1.currentError =
      some (destDBCommitFailMsg errDestDBRootHashMovedMsg) ∧
    (attemptReplicateRun s (.remote none none none .notOk) now).1.nextPushAttempt = now + 1 ∧
    (attemptReplicateRun s (.remote none none none .notOk) now).1.lastPushedHead =
      s.lastPushedHead ∧
    (attemptReplicateRun s (.remote none none none .notOk) now).2 = [] := by
  refine ⟨rfl, rfl, ?_, ?_, ?_, ?_⟩ <;>
    simp [attemptReplicateRun, attemptReplicateFinish, remotePhaseErr, h]

/-- C9 witness: the destination-moved failure on a primary pushing head 5. -/
theorem destRootMoved_error_witness :
    (attemptReplicateRun { newCommitHook "remote1" "db1" Role.Primary with nextHead := 5 }
        (.remote none none none .notOk) 9).1.currentError =
      some (destDBCommitFailMsg errDestDBRootHashMovedMsg) ∧
    (attemptReplicateRun { newCommitHook "remote1" "db1" Role.Primary with nextHead := 5 }
        (.remote none none none .notOk) 9).1.nextPushAttempt = 10 := by
  have h := destRootMoved_error
    { newCommitHook "remote1" "db1" Role.Primary with nextHead := 5 } 9 (by decide)
  exact ⟨h.2.2.1, h.2.2.2.1⟩

/-!
Claim C2.
-/

/-- C2: in the final mutex-held section of `attemptReplicate`, when role is
still Primary: on success `currentError` is cleared, `lastPushedHead`
becomes the captured `toPush`, `lastSuccess` the captured `incomingTime`,
`nextPushAttempt` is cleared and every stolen success channel is closed; on
failure `currentError` is set and the 1-second backoff is scheduled exactly
when `toPush` still equals `nextHead`; when role is no longer Primary none
of these fields change and nothing is closed. -/
theorem attemptReplicateFinish_spec (s : Commithook) (tp : Hash) (it : Timestamp)
    (stolen : List ChanId) (now : Timestamp) :
    (s.role = Role.Primary →
      ((attemptReplicateFinish s tp it stolen none now).1.currentError = none ∧
       (attemptReplicateFinish s tp it stolen none now).1.lastPushedHead = tp ∧
       (attemptReplicateFinish s tp it stolen none now).1.lastSuccess = it ∧
       (attemptReplicateFinish s tp it stolen none now).1.nextPushAttempt = 0 ∧
       (attemptReplicateFinish s tp it stolen none now).2 = stolen)) ∧
    (∀ e, s.role = Role.Primary →
      ((attemptReplicateFinish s tp it stolen (some e) now).1.currentError =
         some (destDBCommitFailMsg e) ∧
       ((attemptReplicateFinish s tp it stolen (some e) now).1.nextPushAttempt =
         if tp = s.nextHead then now + 1 else s.nextPushAttempt) ∧
       (attemptReplicateFinish s tp it stolen (some e) now).1.lastPushedHead =
         s.lastPushedHead ∧
       (attemptReplicateFinish s tp it stolen (some e) now).1.lastSuccess = s.lastSuccess ∧
       (attemptReplicateFinish s tp it stolen (some e) now).2 = [])) ∧
    (∀ err, s.role ≠ Role.Primary →
      ((attemptReplicateFinish s tp it stolen err now).1.currentError = s.currentError ∧
       (attemptReplicateFinish s tp it stolen err now).1.lastPushedHead = s.lastPushedHead ∧
       (attemptReplicateFinish s tp it stolen err now).1.lastSuccess = s.lastSuccess ∧
       (attemptReplicateFinish s tp it stolen err now).1.nextPushAttempt =
         s.nextPushAttempt ∧
       (attemptReplicateFinish s tp it stolen err now).2 = [])) := by
  refine ⟨fun h => ?_, fun e h => ?_, fun err h => ?_⟩
  · simp [attemptReplicateFinish, h]
  · simp [attemptReplicateFinish, h]
  · cases err <;> simp [attemptReplicateFinish, h]

/-- C2 witness: a successful push of head 5 on a primary closes the stolen
channel and records the success. -/
theorem attemptReplicateFinish_spec_witness :
    (attemptReplicateFinish (newCommitHook "remote1" "db1" Role.Primary)
        5 3 [7] none 10).1.lastPushedHead = 5 ∧
    (attemptReplicateFinish (newCommitHook "remote1" "db1" Role.Primary)
        5 3 [7] none 10).1.lastSuccess = 3 ∧
    (attemptReplicateFinish (newCommitHook "remote1" "db1" Role.Primary)
        5 3 [7] none 10).2 = [7] := by
  have h :=
    (attemptReplicateFinish_spec (newCommitHook "remote1" "db1" Role.Primary)
        5 3 [7] 10).1 (by decide)
  exact ⟨h.2.1, h.2.2.1, h.2.2.2.2⟩

/-!
Helper lemmas about the `waitF` construction block of `Execute`, shared by
the `Execute` claims.
-/

/-- The `waitF` block only ever touches `successChs` and the channel
allocator: every other field survives, and the signal flag is passed
through. -/
theorem executeWaitF_fields (s1 : Commithook) (sig : Bool) :
    (executeWaitF s1 sig).state.role = s1.role ∧
    (executeWaitF s1 sig).state.nextHead = s1.nextHead ∧
    (executeWaitF s1 sig).state.lastPushedHead = s1.lastPushedHead ∧
    (executeWaitF s1 sig).state.nextPushAttempt = s1.nextPushAttempt ∧
    (executeWaitF s1 sig).state.nextHeadIncomingTime = s1.nextHeadIncomingTime ∧
    (executeWaitF s1 sig).state.fastFailReplicationWait = s1.fastFailReplicationWait ∧
    (executeWaitF s1 sig).state.remotename = s1.remotename ∧
    (executeWaitF s1 sig).state.dbname = s1.dbname ∧
    (executeWaitF s1 sig).signaled = sig := by
  unfold executeWaitF
  split_ifs <;> (try cases s1.successChs) <;> simp_all

/-- Running the `waitF` block again on its own result changes nothing and
yields either the nil `waitF` or the very same `waitF`. -/
theorem executeWaitF_again (s1 : Commithook) (g g2 : Bool) :
    (executeWaitF (executeWaitF s1 g).state g2).state = (executeWaitF s1 g).state ∧
    ((executeWaitF (executeWaitF s1 g).state g2).waitF = WaitF.nilF ∨
     (executeWaitF (executeWaitF s1 g).state g2).waitF = (executeWaitF s1 g).waitF) := by
  unfold executeWaitF
  split_ifs <;> (try cases hc : s1.successChs) <;> simp_all [isCaughtUp]

/-- On a primary with a successful root read, `Execute` is the head update
followed by the `waitF` block. -/
theorem Execute_primary_as_waitF (s : Commithook) (root : Hash) (now : Timestamp)
    (hp : s.role = Role.Primary) :
    Execute s (.ok root) now =
      executeWaitF
        (if root ≠ s.nextHead then
          { s with nextHeadIncomingTime := now, nextHead := root, nextPushAttempt := 0 }
         else s)
        (decide (root ≠ s.nextHead)) := by
  simp [Execute, hp]

/-- The `waitF` block does not change whether the hook is caught up. -/
theorem executeWaitF_isCaughtUp (s1 : Commithook) (g : Bool) :
    isCaughtUp (executeWaitF s1 g).state = isCaughtUp s1 := by
  unfold executeWaitF
  split_ifs <;> (try cases hc : s1.successChs) <;> simp_all [isCaughtUp]

/-!
Claim C5.
-/

/-- C5: when `Execute` runs with role Primary, a root that differs from
`nextHead` sets `nextHeadIncomingTime` to now, `nextHead` to the root,
clears `nextPushAttempt` and signals the worker; a root equal to `nextHead`
leaves all three fields unchanged and sends no signal. -/
theorem execute_primary_head_update (s : Commithook) (root : Hash) (now : Timestamp)
    (h : s.role = Role.Primary) :
    (root ≠ s.nextHead →
      ((Execute s (.ok root) now).state.nextHeadIncomingTime = now ∧
       (Execute s (.ok root) now).state.nextHead = root ∧
       (Execute s (.ok root) now).state.nextPushAttempt = 0 ∧
       (Execute s (.ok root) now).signaled = true)) ∧
    (root = s.nextHead →
      ((Execute s (.ok root) now).state.nextHead = s.nextHead ∧
       (Execute s (.ok root) now).state.nextHeadIncomingTime = s.nextHeadIncomingTime ∧
       (Execute s (.ok root) now).state.nextPushAttempt = s.nextPushAttempt ∧
       (Execute s (.ok root) now).signaled = false)) := by
  constructor
  · intro hne
    rw [Execute_primary_as_waitF s root now h]
    simp only [ne_eq, hne, not_false_eq_true, ite_true, decide_True]
    have hf := executeWaitF_fields
      { s with nextHeadIncomingTime := now, nextHead := root, nextPushAttempt := 0 } true
    exact ⟨hf.2.2.2.2.1, hf.2.1, hf.2.2.2.1, hf.2.2.2.2.2.2.2.2⟩
  · intro heq
    rw [Execute_primary_as_waitF s root now h]
    simp only [heq, ne_eq, not_true_eq_false, ite_false, decide_False]
    have hf := executeWaitF_fields s false
    exact ⟨hf.2.1, hf.2.2.2.2.1, hf.2.2.2.1, hf.2.2.2.2.2.2.2.2⟩

/-- C5 witness: a fresh primary receiving root 4 records it and signals. -/
theorem execute_primary_head_update_witness :
    (Execute (newCommitHook "remote1" "db1" Role.Primary) (.ok 4) 6).state.nextHead = 4 ∧
    (Execute (newCommitHook "remote1" "db1" Role.Primary) (.ok 4) 6).state.nextHeadIncomingTime
      = 6 ∧
    (Execute (newCommitHook "remote1" "db1" Role.Primary) (.ok 4) 6).signaled = true := by
  have h := (execute_primary_head_update
    (newCommitHook "remote1" "db1" Role.Primary) 4 6 (by decide)).1 (by decide)
  exact ⟨h.2.1, h.1, h.2.2.2⟩

/-!
Claim C4.
-/

/-- C4, counterexample: starting from a fresh primary, after `Execute`
brings head 1, `NotifyWaitFailed` sets the circuit breaker, and the worker
starts and successfully finishes the push of head 1 (closing the stolen
wait channel), `fastFailReplicationWait` is still true — the successful
push did not clear it — and the next `Execute` that is not caught up
returns the immediate circuit-breaker `waitF`, not a blocking one, refuting
"fastFail is cleared by the next successful push ... after which Execute
returns a blocking waitF again". -/
theorem fastFail_survives_push_cex :
    fastFailAfterPushState.lastPushedHead = 1 ∧
    fastFailAfterPushState.successChs = [] ∧
    fastFailAfterPushState.fastFailReplicationWait = true ∧
    (Execute fastFailAfterPushState (.ok 2) 2).waitF.isBlock = false ∧
    (Execute fastFailAfterPushState (.ok 2) 2).waitF ≠ WaitF.nilF := by
  decide

/-- C4, amended: `NotifyWaitFailed` sets `fastFail`; every `Execute` on a
primary with `fastFail` set that is not caught up returns the immediate
circuit-breaker `waitF`; `fastFail` is cleared, and the pending wait
channels closed, by the replicate worker's idle iteration when it finds the
hook caught up with pending channels — a successful push closes the
channels it stole but leaves `fastFail` exactly as it was. -/
theorem fastFail_circuit (sa sb sc sd : Commithook) (root : Hash) (nb : Timestamp)
    (tp : Hash) (it : Timestamp) (stolen : List ChanId) (nd : Timestamp) :
    (NotifyWaitFailed sa).fastFailReplicationWait = true ∧
    (sb.role = Role.Primary → sb.fastFailReplicationWait = true →
      isCaughtUp (Execute sb (.ok root) nb).state = false →
      (Execute sb (.ok root) nb).waitF =
        WaitF.fastFail (circuitBreakerMsg sb.remotename sb.dbname)) ∧
    (isCaughtUp sc = true → sc.successChs ≠ [] →
      ((idleScan sc).1.fastFailReplicationWait = false ∧
       (idleScan sc).1.successChs = [] ∧
       (idleScan sc).2 = sc.successChs)) ∧
    ((attemptReplicateFinish sd tp it stolen none nd).1.fastFailReplicationWait =
      sd.fastFailReplicationWait) := by
  refine ⟨rfl, ?_, ?_, ?_⟩
  · intro hb hf hcu
    rw [Execute_primary_as_waitF sb root nb hb] at hcu ⊢
    rw [executeWaitF_isCaughtUp] at hcu
    by_cases hr : root = sb.nextHead
    · simp only [hr, ne_eq, not_true_eq_false, ite_false, decide_False] at hcu ⊢
      unfold executeWaitF
      simp [hcu, hf]
    · simp only [ne_eq, hr, not_false_eq_true, ite_true, decide_True] at hcu ⊢
      simp only [hf] at hcu ⊢
      unfold executeWaitF
      simp [hcu]
  · intro h1 h2
    unfold idleScan
    rw [if_pos ⟨h2, h1⟩]
    exact ⟨rfl, rfl, rfl⟩
  · unfold attemptReplicateFinish
    split_ifs <;> simp

/-- C4 witness: after `NotifyWaitFailed` on a fresh primary, the next
`Execute` with a new head returns the circuit-breaker `waitF`. -/
theorem fastFail_circuit_witness :
    (NotifyWaitFailed (newCommitHook "remote1" "db1" Role.Primary)).fastFailReplicationWait
      = true ∧
    (Execute fastFailFreshState (.ok 1) 0).waitF =
      WaitF.fastFail (circuitBreakerMsg "remote1" "db1") := by
  have h := fastFail_circuit (newCommitHook "remote1" "db1" Role.Primary)
    fastFailFreshState fastFailFreshState fastFailFreshState 1 0 0 0 [] 0
  exact ⟨h.1, h.2.1 (by decide) (by decide) (by decide)⟩

/-!
Claim C6.
-/

/-- C6, counterexample: on a fresh primary with `fastFail` already set, two
`Execute` calls with the same root 1 leave the state of the first call
unchanged and send no second signal — but the second call's `waitF` is the
circuit-breaker failure: it is neither nil nor backed by any wait channel,
refuting the claimed "nil or the same shared wait channel" disjunction. -/
theorem execute_twice_fastFail_cex :
    (Execute (Execute fastFailFreshState (.ok 1) 0).state (.ok 1) 1).state =
      (Execute fastFailFreshState (.ok 1) 0).state ∧
    (Execute (Execute fastFailFreshState (.ok 1) 0).state (.ok 1) 1).signaled = false ∧
    (Execute (Execute fastFailFreshState (.ok 1) 0).state (.ok 1) 1).waitF ≠ WaitF.nilF ∧
    (Execute (Execute fastFailFreshState (.ok 1) 0).state (.ok 1) 1).waitF.isBlock = false := by
  decide

/-- C6, amended: `Execute` called twice with the same root performs no
additional state update and no worker signal on the second call, and the
second call returns either a nil `waitF` (already caught up) or a `waitF`
equal to the first call's — the shared wait channel (`waitChannels[0]`
reused) when `fastFail` is unset, or the same immediate circuit-breaker
failure when `fastFail` is set. -/
theorem execute_same_root_idempotent (s : Commithook) (root : Hash) (n1 n2 : Timestamp) :
    (Execute (Execute s (.ok root) n1).state (.ok root) n2).state =
      (Execute s (.ok root) n1).state ∧
    (Execute (Execute s (.ok root) n1).state (.ok root) n2).signaled = false ∧
    ((Execute (Execute s (.ok root) n1).state (.ok root) n2).waitF = WaitF.nilF ∨
     (Execute (Execute s (.ok root) n1).state (.ok root) n2).waitF =
       (Execute s (.ok root) n1).waitF) := by
  by_cases hp : s.role = Role.Primary
  · rw [Execute_primary_as_waitF s root n1 hp]
    set s1 := (if root ≠ s.nextHead then
        { s with nextHeadIncomingTime := n1, nextHead := root, nextPushAttempt := 0 }
      else s) with hs1
    set g := decide (root ≠ s.nextHead) with hg
    have h1role : s1.role = Role.Primary := by
      rw [hs1]; split_ifs <;> simp [hp]
    have h1head : s1.nextHead = root := by
      rw [hs1]; split_ifs with h <;> simp_all
    have hrole2 : (executeWaitF s1 g).state.role = Role.Primary := by
      rw [(executeWaitF_fields s1 g).1, h1role]
    have hhead2 : (executeWaitF s1 g).state.nextHead = root := by
      rw [(executeWaitF_fields s1 g).2.1, h1head]
    rw [Execute_primary_as_waitF _ root n2 hrole2]
    simp only [hhead2, ne_eq, not_true_eq_false, decide_False, ite_false]
    refine ⟨(executeWaitF_again s1 g false).1, ?_, (executeWaitF_again s1 g false).2⟩
    exact (executeWaitF_fields _ false).2.2.2.2.2.2.2.2
  · simp [Execute, hp]

/-!
Step-level lemmas for the trace semantics, feeding the `lastPushedHead`
evolution claim.
-/

/-- The `waitF` block never touches `inflight`. -/
theorem executeWaitF_inflight (s1 : Commithook) (g : Bool) :
    (executeWaitF s1 g).state.inflight = s1.inflight := by
  unfold executeWaitF
  split_ifs <;> (try cases s1.successChs) <;> simp_all

/-- `Execute` never touches `inflight`. -/
theorem Execute_state_inflight (s : Commithook) (rootRes : Except String Hash)
    (now : Timestamp) :
    (Execute s rootRes now).state.inflight = s.inflight := by
  cases rootRes with
  | error e => rfl
  | ok root =>
    by_cases hp : s.role = Role.Primary
    · rw [Execute_primary_as_waitF s root now hp, executeWaitF_inflight]
      split_ifs <;> rfl
    · simp [Execute, hp]

/-- `Execute` never touches `lastPushedHead`. -/
theorem Execute_state_lastPushedHead (s : Commithook) (rootRes : Except String Hash)
    (now : Timestamp) :
    (Execute s rootRes now).state.lastPushedHead = s.lastPushedHead := by
  cases rootRes with
  | error e => rfl
  | ok root =>
    by_cases hp : s.role = Role.Primary
    · rw [Execute_primary_as_waitF s root now hp, (executeWaitF_fields _ _).2.2.1]
      split_ifs <;> rfl
    · simp [Execute, hp]

/-- Across any single non-`setRole` event, `lastPushedHead` is unchanged or
becomes the head captured by the in-flight attempt (the successful-finish
write of line 313). -/
theorem step_lastPushedHead (s : Commithook) (e : Event) (hne : isRoleChange e = false) :
    (step s e).lastPushedHead = s.lastPushedHead ∨
      capturedHead s = some (step s e).lastPushedHead := by
  cases e with
  | execute rootRes now => exact Or.inl (Execute_state_lastPushedHead s rootRes now)
  | notifyWaitFailed => exact Or.inl rfl
  | roleChange r => simp [isRoleChange] at hne
  | remoteSrvCommit now =>
    left
    simp only [step, recordSuccessfulRemoteSrvCommit]
    split_ifs <;> rfl
  | primaryInit rootRes now =>
    left
    simp only [step]
    split_ifs <;> rfl
  | idle =>
    left
    simp only [step, idleScan]
    split_ifs <;> rfl
  | replicateStart now =>
    left
    simp only [step]
    split_ifs <;> rfl
  | replicateFinish k now =>
    simp only [step]
    cases hin : s.inflight with
    | none => exact Or.inl rfl
    | some c =>
      obtain ⟨tp, it, stolen⟩ := c
      cases k with
      | factoryFail e => exact Or.inl rfl
      | pushed err =>
        cases err with
        | none =>
          by_cases hp : s.role = Role.Primary
          · right
            simp [capturedHead, hin, attemptReplicateFinish, hp]
          · left
            simp [attemptReplicateFinish, hp]
        | some e =>
          left
          simp only [attemptReplicateFinish]
          split_ifs <;> rfl

/-- A worker iteration that reaches `attemptReplicate` (not
`primaryNeedsInit`, and `shouldReplicate`) has a nonzero `nextHead` to
capture. -/
theorem shouldReplicate_head_ne_zero (s : Commithook) (now : Timestamp)
    (hpni : primaryNeedsInit s = false) (hsr : shouldReplicate s now = true) :
    s.nextHead ≠ 0 := by
  by_cases hrole : s.role = Role.Primary
  · simp [primaryNeedsInit, hrole] at hpni
    exact hpni
  · have hc : isCaughtUp s = true := by simp [isCaughtUp, hrole]
    rw [shouldReplicate, hc] at hsr
    simp at hsr

/-- Across any single non-`setRole` event, the captured head is dropped,
kept, or freshly captured from the current (nonzero) `nextHead`. -/
theorem step_capturedHead (s : Commithook) (e : Event) (hne : isRoleChange e = false) :
    capturedHead (step s e) = none ∨ capturedHead (step s e) = capturedHead s ∨
      (capturedHead (step s e) = some s.nextHead ∧ s.nextHead ≠ 0) := by
  cases e with
  | execute rootRes now =>
    right; left
    simp only [capturedHead, step, Execute_state_inflight]
  | notifyWaitFailed => exact Or.inr (Or.inl rfl)
  | roleChange r => simp [isRoleChange] at hne
  | remoteSrvCommit now =>
    right; left
    simp only [capturedHead, step, recordSuccessfulRemoteSrvCommit]
    split_ifs <;> rfl
  | primaryInit rootRes now =>
    right; left
    simp only [capturedHead, step]
    split_ifs <;> rfl
  | idle =>
    right; left
    simp only [capturedHead, step, idleScan]
    split_ifs <;> rfl
  | replicateStart now =>
    simp only [capturedHead, step]
    split_ifs with hg
    · right; right
      exact ⟨rfl, shouldReplicate_head_ne_zero s now hg.2.1 hg.2.2⟩
    · right; left; rfl
  | replicateFinish k now =>
    simp only [step]
    cases hin : s.inflight with
    | none => exact Or.inr (Or.inl (by simp [capturedHead, hin]))
    | some c =>
      obtain ⟨tp, it, stolen⟩ := c
      cases k with
      | factoryFail e => exact Or.inl rfl
      | pushed err =>
        left
        simp only [attemptReplicateFinish]
        split_ifs <;> (try cases err) <;> rfl

/-- A nonzero captured head stays nonzero across any non-`setRole` event. -/
theorem step_captured_ne_zero (s : Commithook) (e : Event) (hne : isRoleChange e = false)
    (h0 : capturedHead s ≠ some 0) :
    capturedHead (step s e) ≠ some 0 := by
  rcases step_capturedHead s e hne with h | h | ⟨h, hz⟩
  · rw [h]; simp
  · rw [h]; exact h0
  · rw [h]; simp [hz]

/-- Trace invariant: over any `setRole`-free event sequence,
`lastPushedHead` ends equal to its initial value, to a value `nextHead`
held along the way, or to the head captured by the attempt in flight at the
start; the in-flight capture always comes from some `nextHead` of the
trace; and a nonzero capture can never zero `lastPushedHead`. -/
theorem run_lastPushedHead_aux (es : List Event) :
    ∀ s : Commithook, noRoleChange es = true →
    (((run s es).lastPushedHead = s.lastPushedHead
        ∨ (run s es).lastPushedHead ∈ nextHeadsDuring s es
        ∨ capturedHead s = some (run s es).lastPushedHead) ∧
      (∀ hh, capturedHead (run s es) = some hh →
          hh ∈ nextHeadsDuring s es ∨ capturedHead s = some hh) ∧
      (capturedHead s ≠ some 0 → capturedHead (run s es) ≠ some 0) ∧
      (capturedHead s ≠ some 0 → (run s es).lastPushedHead = 0 →
        s.lastPushedHead = 0)) := by
  induction es with
  | nil =>
    intro s _
    exact ⟨Or.inl rfl, fun hh h => Or.inr h, fun h => h, fun _ h => h⟩
  | cons e es ih =>
    intro s hns
    rw [noRoleChange, List.all_cons] at hns
    obtain ⟨hne', hns'⟩ := Bool.and_eq_true_iff.mp hns
    have hne : isRoleChange e = false := by simpa using hne'
    have hrun : run s (e :: es) = run (step s e) es := rfl
    have hnd : nextHeadsDuring s (e :: es) =
        s.nextHead :: nextHeadsDuring (step s e) es := rfl
    have IH := ih (step s e) hns'
    rw [hrun, hnd]
    refine ⟨?_, ?_, ?_, ?_⟩
    · rcases IH.1 with h | h | h
      · rcases step_lastPushedHead s e hne with h2 | h2
        · exact Or.inl (h.trans h2)
        · exact Or.inr (Or.inr (by rw [h]; exact h2))
      · exact Or.inr (Or.inl (List.mem_cons_of_mem _ h))
      · rcases step_capturedHead s e hne with h2 | h2 | ⟨h2, _⟩
        · rw [h2] at h
          exact absurd h (by simp)
        · rw [h2] at h
          exact Or.inr (Or.inr h)
        · rw [h2] at h
          have hs : s.nextHead = (run (step s e) es).lastPushedHead := Option.some.inj h
          exact Or.inr (Or.inl (by rw [← hs]; exact List.mem_cons_self _ _))
    · intro hh h
      rcases IH.2.1 hh h with h2 | h2
      · exact Or.inl (List.mem_cons_of_mem _ h2)
      · rcases step_capturedHead s e hne with h3 | h3 | ⟨h3, _⟩
        · rw [h3] at h2
          exact absurd h2 (by simp)
        · rw [h3] at h2
          exact Or.inr h2
        · rw [h3] at h2
          have hs : s.nextHead = hh := Option.some.inj h2
          exact Or.inl (by rw [← hs]; exact List.mem_cons_self _ _)
    · intro h0
      exact IH.2.2.1 (step_captured_ne_zero s e hne h0)
    · intro h0 hlz
      have h1 := IH.2.2.2 (step_captured_ne_zero s e hne h0) hlz
      rcases step_lastPushedHead s e hne with h2 | h2
      · rw [← h2]; exact h1
      · exfalso
        apply h0
        rw [h2, h1]

/-!
Claim C3.
-/

/-- C3, counterexample: start a fresh primary, let the worker initialize
`nextHead` to head 1 and start pushing it, then call `setRole(Primary)`
(resetting `lastPushedHead` and `nextHead` to zero while the push stays in
flight).  Observing from this point (`t1`), the in-flight push completes
successfully with no `setRole` in between, and `lastPushedHead` becomes 1 —
a value it did not have at `t1` and that `nextHead` never held during the
window, refuting the claimed disjunction. -/
theorem lastPushedHead_cross_epoch_cex :
    noRoleChange crossEpochFinish = true ∧
    ¬ ((run crossEpochState crossEpochFinish).lastPushedHead =
         crossEpochState.lastPushedHead ∨
       (run crossEpochState crossEpochFinish).lastPushedHead ∈
         nextHeadsDuring crossEpochState crossEpochFinish) := by
  decide

/-- C3, amended: over any `setRole`-free window whose starting in-flight
capture (if any) is nonzero, `lastPushedHead` ends equal to its starting
value, to a value `nextHead` held during the window, or to the head
captured by the attempt already in flight when the window began — and it
can only end zero if it started zero (only `setRole` resets it to zero). -/
theorem lastPushedHead_no_regress (s : Commithook) (es : List Event)
    (hns : noRoleChange es = true) (h0 : capturedHead s ≠ some 0) :
    ((run s es).lastPushedHead = s.lastPushedHead
      ∨ (run s es).lastPushedHead ∈ nextHeadsDuring s es
      ∨ capturedHead s = some (run s es).lastPushedHead) ∧
    ((run s es).lastPushedHead = 0 → s.lastPushedHead = 0) :=
  ⟨(run_lastPushedHead_aux es s hns).1, (run_lastPushedHead_aux es s hns).2.2.2 h0⟩

/-- C3 witness: a full push cycle on a fresh primary. -/
theorem lastPushedHead_no_regress_witness :
    ((run (newCommitHook "remote1" "db1" Role.Primary)
        [.execute (.ok 1) 0, .replicateStart 0,
         .replicateFinish (.pushed none) 1]).lastPushedHead =
          (newCommitHook "remote1" "db1" Role.Primary).lastPushedHead
      ∨ (run (newCommitHook "remote1" "db1" Role.Primary)
          [.execute (.ok 1) 0, .replicateStart 0,
           .replicateFinish (.pushed none) 1]).lastPushedHead ∈
        nextHeadsDuring (newCommitHook "remote1" "db1" Role.Primary)
          [.execute (.ok 1) 0, .replicateStart 0, .replicateFinish (.pushed none) 1]
      ∨ capturedHead (newCommitHook "remote1" "db1" Role.Primary) =
          some (run (newCommitHook "remote1" "db1" Role.Primary)
            [.execute (.ok 1) 0, .replicateStart 0,
             .replicateFinish (.pushed none) 1]).lastPushedHead) ∧
    ((run (newCommitHook "remote1" "db1" Role.Primary)
        [.execute (.ok 1) 0, .replicateStart 0,
         .replicateFinish (.pushed none) 1]).lastPushedHead = 0 →
      (newCommitHook "remote1" "db1" Role.Primary).lastPushedHead = 0) :=
  lastPushedHead_no_regress (newCommitHook "remote1" "db1" Role.Primary)
    [.execute (.ok 1) 0, .replicateStart 0, .replicateFinish (.pushed none) 1]
    (by decide) (by decide)

/-!
Claim C10.
-/

/-- C10, counterexample: the name `"db/"` contains the revision delimiter,
yet `DropDatabase` does not refuse it — the guard tests the revision part,
which is empty here — and on a provider holding `"db/"` the drop goes
through and changes the maps and the filesystem. -/
theorem dropDatabase_trailing_delim_cex :
    trailingDelimName.contains dbRevisionDelimiter = true ∧
    (DropDatabase trailingDelimProvider trailingDelimName).isOk = true ∧
    (DropDatabase trailingDelimProvider trailingDelimName).toOption ≠
      some trailingDelimProvider := by
  decide

/-- C10, amended: for every name whose revision part — the substring after
the first occurrence of the revision delimiter — is nonempty, `DropDatabase`
returns the "unable to drop revision database" error before acquiring the
provider lock, leaving the databases map, the dbLocations map and the
filesystem unchanged. -/
theorem dropDatabase_refuses_revision (p : DoltDatabaseProvider) (name : Name)
    (h : (SplitRevisionDbName name).2 ≠ []) :
    DropDatabase p name = .error (.revisionDb name) := by
  unfold DropDatabase
  rw [if_pos h]

/-- C10 witness: dropping `"db/main"` is refused. -/
theorem dropDatabase_refuses_revision_witness :
    DropDatabase trailingDelimProvider ['d', 'b', '/', 'm', 'a', 'i', 'n'] =
      .error (.revisionDb ['d', 'b', '/', 'm', 'a', 'i', 'n']) :=
  dropDatabase_refuses_revision trailingDelimProvider
    ['d', 'b', '/', 'm', 'a', 'i', 'n'] (by decide)

end DoltCluster

